import Mathlib

/-
Verification development for the `create-vite`-style scaffolding CLI
(`src/index.js`).  The JavaScript source is shallowly embedded:

  * the static catalog (`FRAMEWORKS`, `TEMPLATES`) becomes immutable Lean data;
  * `formatTargetDir` becomes a pure function on character lists (JS
    `String.prototype.trim` is modelled over the ASCII whitespace characters,
    which is all the claims exercise);
  * the `prompts` question sequence becomes a deterministic flow over a
    `UserActions` record describing what the user would answer or whether they
    cancel at each question; the `prompts` library threads the previous
    *answered* question's value into the next question's dynamic `type`
    callback, and skipped questions do not update that value — the embedding
    reproduces this with a `PromptAnswer` chain;
  * the synchronous filesystem becomes a tree of named entries
    (`FSTree`); directory names are taken as atomic entry names, which covers
    every claim (none involves a path separator inside a single name);
  * `chalk` color functions are behaviourally inert (pure display), so color
    tags are carried as data and never applied to strings.

Fallible filesystem operations return an error message alongside the state
reached so far, mirroring Node's synchronous throw-on-first-failure behaviour.
-/

/-! ## Catalog (src/index.js lines 41-92) -/

inductive ColorTag where
  | green | blue | yellow | cyan
deriving DecidableEq, Repr

structure Variant where
  name : String
  display : String
  color : ColorTag
deriving DecidableEq, Repr

/- `variants` is an optional field in the JS object literal (the source reads
it with `f.variants?.map` and tests `framework.variants` for truthiness), so it
is embedded as an `Option`.  Every framework in the actual catalog has it. -/
structure Framework where
  name : String
  display : String
  color : ColorTag
  variants : Option (List Variant)
deriving DecidableEq, Repr

def FRAMEWORKS : List Framework :=
  [ { name := "vue", display := "Vue", color := ColorTag.green,
      variants := some
        [ { name := "vue-ts", display := "TypeScript", color := ColorTag.blue },
          { name := "vue", display := "JavaScript", color := ColorTag.yellow } ] },
    { name := "react", display := "React", color := ColorTag.cyan,
      variants := some
        [ { name := "react-ts", display := "TypeScript", color := ColorTag.blue },
          { name := "react-swc-ts", display := "TypeScript + SWC", color := ColorTag.blue },
          { name := "react", display := "JavaScript", color := ColorTag.yellow },
          { name := "react-swc", display := "JavaScript + SWC", color := ColorTag.yellow } ] } ]

/- `TEMPLATES = FRAMEWORKS.map(f => f.variants?.map(v => v.name)).reduce((a, b) => a.concat(b), [])`.
Every catalog framework has a `variants` field, so the optional-chaining
never yields `undefined` here; `getD []` is therefore value-equal to the JS
expression on this catalog. -/
def TEMPLATES : List String :=
  (FRAMEWORKS.map (fun f => ((f.variants.map (fun vs => vs.map (fun v => v.name))).getD []))).foldl
    (fun a b => a ++ b) []

/-- Every (framework name, variant name) pair of the catalog, used to express
that a variant id maps back to exactly one place. -/
def catalogPairs : List (String × String) :=
  (FRAMEWORKS.map (fun f => ((f.variants.getD []).map (fun v => (f.name, v.name))))).foldl
    (fun a b => a ++ b) []

def defaultTargetDir : String := "vite-project"

/-! ## formatTargetDir (src/index.js lines 37-39)

`targetDir?.trim().replace(/\/+$/g, '')` : optional chaining, trim, then the
regex deletes the trailing run of `/` characters. -/

def isJsSpace (c : Char) : Bool :=
  c == ' ' || c == '\t' || c == '\n' || c == '\r' || c == '\x0b' || c == '\x0c'

def trimChars (cs : List Char) : List Char :=
  ((cs.dropWhile isJsSpace).reverse.dropWhile isJsSpace).reverse

/-- The regex replace `.replace(/\/+$/g, '')`: with the `$` anchor the only
possible match is the maximal trailing run of slashes, which is deleted. -/
def dropTrailingSlashes (cs : List Char) : List Char :=
  (cs.reverse.dropWhile (fun c => c == '/')).reverse

def formatTargetDirStr (s : String) : String :=
  String.mk (dropTrailingSlashes (trimChars s.data))

def formatTargetDir (targetDir : Option String) : Option String :=
  targetDir.map formatTargetDirStr

/-- A second reading of the same operation, written from the specification's
words: "the string trimmed of surrounding whitespace with all trailing `/`
characters removed" — strip leading/trailing whitespace, then repeatedly drop a
final slash. -/
def specNormalizeTargetDir (s : String) : String :=
  String.mk (specDropSlashes (trimChars s.data))
where
  specDropSlashes (cs : List Char) : List Char :=
    match h : cs.getLast? with
    | some c => if c == '/' then specDropSlashes cs.dropLast else cs
    | none => []
  termination_by cs.length
  decreasing_by
    simp only [List.length_dropLast]
    have : cs ≠ [] := by intro hnil; simp [hnil] at h
    have : 0 < cs.length := List.length_pos.mpr this
    omega

/-! ## Filesystem model

A directory is a list of named entries; a file carries its bytes.  The
synchronous `fs` calls used by the materializer are modelled over this tree:

  * `fs.readdirSync` — the entry list itself (in list order);
  * `fs.statSync(..).isDirectory()` — a `match` on the constructor;
  * `fs.copyFileSync` — overwrite the destination entry with the source bytes;
    copying onto an existing directory throws (EISDIR);
  * `fs.mkdirSync(dest, { recursive: true })` — no-op if `dest` is already a
    directory, throws if `dest` is an existing file (EEXIST), creates an empty
    directory otherwise.

Failures carry the filesystem state reached so far (first error aborts the
whole run, possibly leaving a partially populated destination). -/

inductive FSTree where
  | file : List Nat → FSTree
  | dir : List (String × FSTree) → FSTree
deriving Repr

def lookupEntry : List (String × FSTree) → String → Option FSTree
  | [], _ => none
  | (n, t) :: rest, m => if n = m then some t else lookupEntry rest m

/-- Writing an entry: replace the entry of that name, or append a new one. -/
def setEntry : List (String × FSTree) → String → FSTree → List (String × FSTree)
  | [], n, t => [(n, t)]
  | (m, u) :: rest, n, t => if m = n then (n, t) :: rest else (m, u) :: setEntry rest n t

/-- Boolean membership test on a list of names. -/
def namesHas : List String → String → Bool
  | [], _ => false
  | n :: rest, m => (n == m) || namesHas rest m

/-- Boolean distinctness of a list of names (real directories never list the
same name twice). -/
def nodupNames : List String → Bool
  | [] => true
  | n :: rest => (!(namesHas rest n)) && nodupNames rest

mutual

/-- Well-formedness of a tree coming from a real filesystem: within every
directory the entry names are pairwise distinct. -/
def wfTree : FSTree → Bool
  | FSTree.file _ => true
  | FSTree.dir es => nodupNames (es.map Prod.fst) && wfEntries es

def wfEntries : List (String × FSTree) → Bool
  | [] => true
  | (_, t) :: rest => wfTree t && wfEntries rest

end

mutual

/-- `copy(src, dest)` (src/index.js lines 197-204): stat the source; recurse
via `copyDir` for a directory, `fs.copyFileSync` for a file.  The second
argument is the current destination entry (if any); the result is the error
raised (if any) together with the destination entry after the attempt. -/
def copyTree : FSTree → Option FSTree → Option String × FSTree
  | FSTree.file _, some (FSTree.dir des) =>
    (some "EISDIR: copyFileSync onto a directory", FSTree.dir des)
  | FSTree.file c, _ => (none, FSTree.file c)
  | FSTree.dir _, some (FSTree.file c) =>
    (some "EEXIST: mkdirSync onto an existing file", FSTree.file c)
  | FSTree.dir es, some (FSTree.dir des) =>
    (let r := copyEntriesInto es des; (r.1, FSTree.dir r.2))
  | FSTree.dir es, none =>
    (let r := copyEntriesInto es []; (r.1, FSTree.dir r.2))

/-- `copyDir`'s loop (src/index.js lines 190-194): copy each child under its
unchanged name, stopping at the first error. -/
def copyEntriesInto : List (String × FSTree) → List (String × FSTree) →
    Option String × List (String × FSTree)
  | [], dest => (none, dest)
  | (n, t) :: rest, dest =>
    let r := copyTree t (lookupEntry dest n)
    let dest2 := setEntry dest n r.2
    match r.1 with
    | some e => (some e, dest2)
    | none => copyEntriesInto rest dest2

end

/-- The rename table (src/index.js lines 175-177): `{ _gitignore: '.gitignore' }`. -/
def renameFiles (f : String) : Option String :=
  if f = "_gitignore" then some ".gitignore" else none

/-- `write(file)`'s destination name: `renameFiles[file] ?? file`. -/
def writeName (f : String) : String := (renameFiles f).getD f

/-- The materialization loop (src/index.js lines 210-213): for each immediate
entry of the template directory, `write(file)` copies it to
`root/(renameFiles[file] ?? file)`.  Returns the first error (if any) and the
destination root's entries after the attempt. -/
def materialize : List (String × FSTree) → List (String × FSTree) →
    Option String × List (String × FSTree)
  | [], root => (none, root)
  | (f, t) :: rest, root =>
    let r := copyTree t (lookupEntry root (writeName f))
    let root2 := setEntry root (writeName f) r.2
    match r.1 with
    | some e => (some e, root2)
    | none => materialize rest root2

/-- Destination-root preparation (src/index.js lines 206-208):
`if (!fs.existsSync(root)) fs.mkdirSync(root, { recursive: true })`.
Total — this step never throws: the guarded `mkdirSync` only runs when the
path does not exist. -/
def ensureRoot (cwd : List (String × FSTree)) (targetDir : String) :
    List (String × FSTree) :=
  match lookupEntry cwd targetDir with
  | some _ => cwd
  | none => setEntry cwd targetDir (FSTree.dir [])

/-! ## The interactive flow (src/index.js lines 96-173)

`prompts` evaluates the questions in order.  A question whose (possibly
dynamic) `type` is `null` is skipped and records no answer; the value handed to
the next dynamic `type` callback is the answer of the last *answered*
question.  The user's hypothetical behaviour at each question is a
`UserActions` record: a cancellation flag per question, the final typed project
name, and menu indices for the two select questions. -/

/-- JS truthiness of a possibly-`undefined` string: `undefined` and `""` are
falsy. -/
def optStrTruthy : Option String → Bool
  | none => false
  | some s => !(s == "")

/-- JS `a || b` on possibly-`undefined` strings. -/
def jsOrStr (a b : Option String) : Option String :=
  if optStrTruthy a then a else b

/-- JS `a || d` where `d` is a definite string. -/
def jsOrD (a : Option String) (d : String) : String :=
  if optStrTruthy a then a.getD "" else d

structure UserActions where
  cancelProjectName : Bool
  projectName : String
  cancelFramework : Bool
  frameworkIdx : Nat
  cancelVariant : Bool
  variantIdx : Nat
deriving DecidableEq, Repr

/-- The value threaded between dynamic question callbacks: `undefined`, a text
answer, or a selected framework object. -/
inductive PromptAnswer where
  | undef
  | str : String → PromptAnswer
  | fw : Framework → PromptAnswer
deriving DecidableEq, Repr

/-- Question 1 (`projectName`, line 114): `type: argTargetDir ? null : 'text'`. -/
def askedProjectNameQ (pos : Option String) : Bool :=
  !(optStrTruthy (formatTargetDir pos))

/-- The guard of question 2 (line 123):
`argTemplate && TEMPLATES.includes(argTemplate)`. -/
def templateArgValid (t : Option String) : Bool :=
  match t with
  | some s => (!(s == "")) && TEMPLATES.contains s
  | none => false

/-- Question 2 (`framework`): `type: argTemplate && TEMPLATES.includes(argTemplate) ? null : 'select'`. -/
def askedFrameworkQ (t : Option String) : Bool :=
  !(templateArgValid t)

/-- Placeholder select value; theorems about actual selections carry the
bound `user.frameworkIdx < FRAMEWORKS.length` that the menu UI enforces. -/
def fallbackFramework : Framework :=
  { name := "", display := "", color := ColorTag.green, variants := none }

def chosenFramework (user : UserActions) : Framework :=
  FRAMEWORKS.getD user.frameworkIdx fallbackFramework

/-- The `prev` value seen by question 3's dynamic `type` callback. -/
def answerAfterFrameworkQ (pos t : Option String) (user : UserActions) : PromptAnswer :=
  if askedFrameworkQ t then PromptAnswer.fw (chosenFramework user)
  else if askedProjectNameQ pos then PromptAnswer.str user.projectName
  else PromptAnswer.undef

/-- Question 3's dynamic `type` (line 136):
`(framework) => (framework && framework.variants ? 'select' : null)`.
A string `prev` is truthy when non-empty but has no `variants` property, so
the conjunction is falsy for every non-framework value; for a framework
object, `framework.variants` is truthy exactly when the field is present
(JS arrays, even empty ones, are truthy). -/
def variantQAsked : PromptAnswer → Bool
  | PromptAnswer.fw f => f.variants.isSome
  | _ => false

def askedVariantQ (pos t : Option String) (user : UserActions) : Bool :=
  variantQAsked (answerAfterFrameworkQ pos t user)

def fallbackVariant : Variant :=
  { name := "", display := "", color := ColorTag.green }

/-- The `value` of the selected variant choice (line 144): `variant.name`. -/
def chosenVariantName (user : UserActions) : String :=
  (((chosenFramework user).variants.getD []).getD user.variantIdx fallbackVariant).name

/-- `result.variant`: the variant question's answer, or `undefined` if skipped. -/
def variantAnswer (pos t : Option String) (user : UserActions) : Option String :=
  if askedVariantQ pos t user then some (chosenVariantName user) else none

/-- The working target directory after the flow: initialized to
`argTargetDir || defaultTargetDir` (line 106) and live-updated by question 1's
`onState` to `formatTargetDir(state.value) || defaultTargetDir` (line 119). -/
def resolvedTargetDir (pos : Option String) (user : UserActions) : String :=
  if askedProjectNameQ pos then
    jsOrD (formatTargetDir (some user.projectName)) defaultTargetDir
  else jsOrD (formatTargetDir pos) defaultTargetDir

/-- `let template = variant || argTemplate` (line 169). -/
def finalTemplate (pos t : Option String) (user : UserActions) : Option String :=
  jsOrStr (variantAnswer pos t user) t

/-- What a completed (non-help, non-cancelled, no-I/O-error) run resolved. -/
structure DoneInfo where
  targetDir : String
  askedProjectName : Bool
  askedFramework : Bool
  askedVariant : Bool
  framework : Option Framework
  variant : Option String
  template : Option String
deriving DecidableEq, Repr

def mkDoneInfo (pos t : Option String) (user : UserActions) : DoneInfo :=
  { targetDir := resolvedTargetDir pos user
    askedProjectName := askedProjectNameQ pos
    askedFramework := askedFrameworkQ t
    askedVariant := askedVariantQ pos t user
    framework := if askedFrameworkQ t then some (chosenFramework user) else none
    variant := variantAnswer pos t user
    template := finalTemplate pos t user }

/-- The message thrown by `onCancel` (line 151); `chalk.red` only styles. -/
def cancelMessage : String := "✖ Operation cancelled"

inductive RunResult where
  | helpShown
  | cancelled : String → RunResult
  | fsError : String → RunResult
  | done : DoneInfo → RunResult
deriving Repr

/-- One full run of `init` (src/index.js lines 96-225).

Arguments: the formatted-later positional argument `argv._[0]`, the merged
`argv.template || argv.t`, the help flag, the user's interactive behaviour,
the current working directory's entries, and the tool-sibling directories
(`template-<id>` lookup, `fs.readdirSync(templateDir)` throwing ENOENT when
absent).  Returns the run's outcome and the final cwd entries.

The cancellation `catch` (lines 155-158) logs and returns before any
filesystem operation; the root guard and the copy loop run only afterwards.
The source creates the root (lines 206-208) before reading the template
directory (line 210), which this definition preserves. -/
def promptOutcome (pos t : Option String) (help : Bool) (user : UserActions) :
    Option RunResult :=
  if help then some RunResult.helpShown
  else if askedProjectNameQ pos && user.cancelProjectName then
    some (RunResult.cancelled cancelMessage)
  else if askedFrameworkQ t && user.cancelFramework then
    some (RunResult.cancelled cancelMessage)
  else if askedVariantQ pos t user && user.cancelVariant then
    some (RunResult.cancelled cancelMessage)
  else none

/-- The filesystem half of `init` (src/index.js lines 164-224), reached only
when no question was cancelled: guard-create the root, read the template
directory, run the copy loop. -/
def scaffold (pos t : Option String) (user : UserActions)
    (cwd : List (String × FSTree))
    (siblings : String → Option (List (String × FSTree))) :
    RunResult × List (String × FSTree) :=
  let targetDir := resolvedTargetDir pos user
  let template := finalTemplate pos t user
  let cwd1 := ensureRoot cwd targetDir
  match siblings ("template-" ++ template.getD "undefined") with
  | none => (RunResult.fsError "ENOENT: no such template directory", cwd1)
  | some tmplEs =>
    match lookupEntry cwd1 targetDir with
    | some (FSTree.dir rootEs) =>
      let r := materialize tmplEs rootEs
      let cwd2 := setEntry cwd1 targetDir (FSTree.dir r.2)
      match r.1 with
      | some e => (RunResult.fsError e, cwd2)
      | none => (RunResult.done (mkDoneInfo pos t user), cwd2)
    | some (FSTree.file _) =>
      match tmplEs with
      | [] => (RunResult.done (mkDoneInfo pos t user), cwd1)
      | _ :: _ => (RunResult.fsError "ENOTDIR: destination root is a file", cwd1)
    | none => (RunResult.fsError "ENOENT: destination root missing", cwd1)

def initRun (pos t : Option String) (help : Bool) (user : UserActions)
    (cwd : List (String × FSTree))
    (siblings : String → Option (List (String × FSTree))) :
    RunResult × List (String × FSTree) :=
  match promptOutcome pos t help user with
  | some r => (r, cwd)
  | none => scaffold pos t user cwd siblings

/-- The top-level handler (src/index.js lines 227-229):
`init().catch((e) => { console.error(e) })`.  A rejected promise from `init`
is handled: the error is printed and nothing sets `process.exitCode`, so the
process exits 0.  Returns (lines printed by the handler, process exit code). -/
def topLevel (r : RunResult) : List String × Nat :=
  match r with
  | RunResult.fsError e => ([e], 0)
  | _ => ([], 0)

/-! ## Helper lemmas -/

theorem namesHas_of_mem : ∀ {l : List String} {a : String}, a ∈ l → namesHas l a = true
  | b :: l, a, h => by
    rcases List.mem_cons.mp h with h1 | h1
    · simp [namesHas, h1]
    · simp [namesHas, namesHas_of_mem h1]

theorem lookupEntry_setEntry_self (es : List (String × FSTree)) (n : String) (t : FSTree) :
    lookupEntry (setEntry es n t) n = some t := by
  induction es with
  | nil => simp [setEntry, lookupEntry]
  | cons p rest ih =>
    by_cases h : p.1 = n
    · simp [setEntry, h, lookupEntry]
    · simp [setEntry, h, lookupEntry, ih]

theorem lookupEntry_setEntry_ne (es : List (String × FSTree)) (n m : String) (t : FSTree)
    (h : n ≠ m) : lookupEntry (setEntry es n t) m = lookupEntry es m := by
  induction es with
  | nil => simp [setEntry, lookupEntry, h]
  | cons p rest ih =>
    by_cases hp : p.1 = n
    · simp [setEntry, hp, lookupEntry, h]
    · simp [setEntry, hp, lookupEntry, ih]

theorem setEntry_eq_append (es : List (String × FSTree)) (n : String) (t : FSTree)
    (h : lookupEntry es n = none) : setEntry es n t = es ++ [(n, t)] := by
  induction es with
  | nil => simp [setEntry]
  | cons p rest ih =>
    by_cases hp : p.1 = n
    · simp [lookupEntry, hp] at h
    · simp only [lookupEntry, hp, if_false] at h
      simp [setEntry, hp, ih h]

theorem lookupEntry_append_of_none (es fs : List (String × FSTree)) (n : String)
    (h : lookupEntry es n = none) : lookupEntry (es ++ fs) n = lookupEntry fs n := by
  induction es with
  | nil => simp
  | cons p rest ih =>
    by_cases hp : p.1 = n
    · simp [lookupEntry, hp] at h
    · simp only [lookupEntry, hp, if_false] at h
      simp [lookupEntry, hp, ih h, List.cons_append]

mutual

/-- Copying a well-formed tree into an empty slot succeeds and reproduces the
tree verbatim. -/
theorem copyTree_none_id : ∀ (t : FSTree), wfTree t = true → copyTree t none = (none, t)
  | FSTree.file _, _ => rfl
  | FSTree.dir es, h => by
    have h1 : nodupNames (es.map Prod.fst) = true := by
      simp [wfTree] at h; exact h.1
    have h2 : wfEntries es = true := by
      simp [wfTree] at h; exact h.2
    have h3 := copyEntriesInto_id es [] h2 h1 (fun p _ => rfl)
    simp [copyTree, h3]

/-- Copying a list of well-formed, distinctly named entries into a directory
that contains none of those names succeeds and appends them verbatim. -/
theorem copyEntriesInto_id : ∀ (src acc : List (String × FSTree)),
    wfEntries src = true → nodupNames (src.map Prod.fst) = true →
    (∀ p ∈ src, lookupEntry acc p.1 = none) →
    copyEntriesInto src acc = (none, acc ++ src)
  | [], acc, _, _, _ => by simp [copyEntriesInto]
  | (n, t) :: rest, acc, hw, hnd, hdisj => by
    have hwt : wfTree t = true := by
      simp [wfEntries] at hw; exact hw.1
    have hwr : wfEntries rest = true := by
      simp [wfEntries] at hw; exact hw.2
    have hhas : namesHas (rest.map Prod.fst) n = false := by
      simp [nodupNames] at hnd; exact hnd.1
    have hndr : nodupNames (rest.map Prod.fst) = true := by
      simp [nodupNames] at hnd; exact hnd.2
    have hacc : lookupEntry acc n = none := hdisj (n, t) (List.mem_cons_self _ _)
    have hcopy : copyTree t (lookupEntry acc n) = (none, t) := by
      rw [hacc]; exact copyTree_none_id t hwt
    have hset : setEntry acc n t = acc ++ [(n, t)] := setEntry_eq_append acc n t hacc
    have hdisj2 : ∀ p ∈ rest, lookupEntry (acc ++ [(n, t)]) p.1 = none := by
      intro p hp
      have hne : p.1 ≠ n := by
        intro he
        have := namesHas_of_mem (l := rest.map Prod.fst) (a := p.1)
          (List.mem_map_of_mem Prod.fst hp)
        rw [he] at this; rw [this] at hhas; exact absurd hhas (by simp)
      rw [lookupEntry_append_of_none acc _ _ (hdisj p (List.mem_cons_of_mem _ hp))]
      simp [lookupEntry, Ne.symm hne]
    have hrest := copyEntriesInto_id rest (acc ++ [(n, t)]) hwr hndr hdisj2
    simp [copyEntriesInto, hcopy, hset, hrest, List.append_assoc]

end

/-- Materializing well-formed template entries with pairwise-distinct
destination names into a root that contains none of those names succeeds and
appends exactly the renamed entries, each subtree verbatim. -/
theorem materialize_disjoint : ∀ (tmpl root : List (String × FSTree)),
    wfEntries tmpl = true →
    nodupNames (tmpl.map (fun p => writeName p.1)) = true →
    (∀ p ∈ tmpl, lookupEntry root (writeName p.1) = none) →
    materialize tmpl root = (none, root ++ tmpl.map (fun p => (writeName p.1, p.2)))
  | [], root, _, _, _ => by simp [materialize]
  | (f, t) :: rest, root, hw, hnd, hdisj => by
    have hwt : wfTree t = true := by
      simp [wfEntries] at hw; exact hw.1
    have hwr : wfEntries rest = true := by
      simp [wfEntries] at hw; exact hw.2
    have hhas : namesHas (rest.map (fun p => writeName p.1)) (writeName f) = false := by
      simp [nodupNames] at hnd; exact hnd.1
    have hndr : nodupNames (rest.map (fun p => writeName p.1)) = true := by
      simp [nodupNames] at hnd; exact hnd.2
    have hroot : lookupEntry root (writeName f) = none :=
      hdisj (f, t) (List.mem_cons_self _ _)
    have hcopy : copyTree t (lookupEntry root (writeName f)) = (none, t) := by
      rw [hroot]; exact copyTree_none_id t hwt
    have hset : setEntry root (writeName f) t = root ++ [(writeName f, t)] :=
      setEntry_eq_append root _ t hroot
    have hdisj2 : ∀ p ∈ rest, lookupEntry (root ++ [(writeName f, t)]) (writeName p.1) = none := by
      intro p hp
      have hne : writeName p.1 ≠ writeName f := by
        intro he
        have := namesHas_of_mem (l := rest.map (fun p => writeName p.1)) (a := writeName p.1)
          (List.mem_map_of_mem _ hp)
        rw [he] at this; rw [this] at hhas; exact absurd hhas (by simp)
      rw [lookupEntry_append_of_none root _ _ (hdisj p (List.mem_cons_of_mem _ hp))]
      simp [lookupEntry, Ne.symm hne]
    have hrest := materialize_disjoint rest (root ++ [(writeName f, t)]) hwr hndr hdisj2
    simp [materialize, hcopy, hset, hrest, List.append_assoc]

/-- A scaffold either completes with exactly the resolved selection or stops
at a filesystem error — never a cancellation or the help screen. -/
theorem scaffold_fst_cases (pos t : Option String) (user : UserActions)
    (cwd : List (String × FSTree)) (sib : String → Option (List (String × FSTree))) :
    (scaffold pos t user cwd sib).1 = RunResult.done (mkDoneInfo pos t user) ∨
    ∃ e, (scaffold pos t user cwd sib).1 = RunResult.fsError e := by
  unfold scaffold
  dsimp only
  split
  · exact Or.inr ⟨_, rfl⟩
  · split
    · split
      · exact Or.inr ⟨_, rfl⟩
      · exact Or.inl rfl
    · split
      · exact Or.inl rfl
      · exact Or.inr ⟨_, rfl⟩
    · exact Or.inr ⟨_, rfl⟩

theorem promptOutcome_none_inv (pos t : Option String) (help : Bool) (user : UserActions)
    (h : promptOutcome pos t help user = none) :
    help = false ∧ (askedProjectNameQ pos && user.cancelProjectName) = false ∧
      (askedFrameworkQ t && user.cancelFramework) = false ∧
      (askedVariantQ pos t user && user.cancelVariant) = false := by
  unfold promptOutcome at h
  split_ifs at h with h1 h2 h3 h4
  simp_all

/-- A run can only report `done info` for the selection actually resolved by
the prompt flow. -/
theorem initRun_done_inv (pos t : Option String) (help : Bool) (user : UserActions)
    (cwd : List (String × FSTree)) (sib : String → Option (List (String × FSTree)))
    (info : DoneInfo) (h : (initRun pos t help user cwd sib).1 = RunResult.done info) :
    promptOutcome pos t help user = none ∧ info = mkDoneInfo pos t user := by
  unfold initRun at h
  split at h
  · rename_i r hr
    exfalso
    unfold promptOutcome at hr
    split_ifs at hr <;> simp_all
  · rename_i hr
    refine ⟨hr, ?_⟩
    rcases scaffold_fst_cases pos t user cwd sib with hc | ⟨e, hc⟩
    · rw [hc] at h
      simpa [RunResult.done.injEq] using h.symm
    · rw [hc] at h
      simp at h

/-- A cancelled run carries exactly the `onCancel` message and leaves the
filesystem untouched. -/
theorem initRun_cancelled_inv (pos t : Option String) (help : Bool) (user : UserActions)
    (cwd : List (String × FSTree)) (sib : String → Option (List (String × FSTree)))
    (m : String) (h : (initRun pos t help user cwd sib).1 = RunResult.cancelled m) :
    m = cancelMessage ∧ (initRun pos t help user cwd sib).2 = cwd := by
  unfold initRun at h ⊢
  split at h
  · rename_i r hr
    simp only at h
    subst h
    unfold promptOutcome at hr
    split_ifs at hr <;> simp_all [cancelMessage]
  · rename_i hr
    exfalso
    rcases scaffold_fst_cases pos t user cwd sib with hc | ⟨e, hc⟩ <;> simp_all

/-- Whatever happens during materialization (success or an error part-way),
a destination entry whose name is not a (renamed) template entry name is
never touched. -/
theorem materialize_untouched : ∀ (tmpl root : List (String × FSTree)) (n : String),
    (∀ p ∈ tmpl, writeName p.1 ≠ n) →
    lookupEntry (materialize tmpl root).2 n = lookupEntry root n
  | [], root, n, _ => by simp [materialize]
  | (f, t) :: rest, root, n, h => by
    have hne : writeName f ≠ n := h (f, t) (List.mem_cons_self _ _)
    have hrest : ∀ p ∈ rest, writeName p.1 ≠ n :=
      fun p hp => h p (List.mem_cons_of_mem _ hp)
    simp only [materialize]
    cases hc : (copyTree t (lookupEntry root (writeName f))).1 with
    | some e => simp [hc, lookupEntry_setEntry_ne _ _ _ _ hne]
    | none =>
      simp only [hc]
      rw [materialize_untouched rest _ n hrest,
        lookupEntry_setEntry_ne _ _ _ _ hne]

/-- The regex-based slash stripping of the source coincides with the
specification's "all trailing `/` characters removed" reading. -/
theorem dropTrailingSlashes_eq_spec_rev (rs : List Char) :
    dropTrailingSlashes rs.reverse = specNormalizeTargetDir.specDropSlashes rs.reverse := by
  induction rs with
  | nil => simp [dropTrailingSlashes, specNormalizeTargetDir.specDropSlashes]
  | cons c rs ih =>
    rw [List.reverse_cons]
    rw [specNormalizeTargetDir.specDropSlashes]
    split
    · rename_i c1 h
      rw [List.getLast?_concat] at h
      injection h with h
      subst h
      rw [List.dropLast_concat]
      by_cases hc : c = '/'
      · simp only [hc, beq_self_eq_true, if_true]
        rw [← ih]
        simp [dropTrailingSlashes, List.reverse_append, hc]
      · have hbeq : (c == '/') = false := beq_eq_false_iff_ne.mpr hc
        simp only [hbeq, Bool.false_eq_true, if_false]
        simp [dropTrailingSlashes, List.reverse_append, hbeq]
    · rename_i h
      rw [List.getLast?_concat] at h
      exact absurd h (by simp)

theorem formatTargetDirStr_eq_spec (s : String) :
    formatTargetDirStr s = specNormalizeTargetDir s := by
  unfold formatTargetDirStr specNormalizeTargetDir
  have h := dropTrailingSlashes_eq_spec_rev (trimChars s.data).reverse
  rw [List.reverse_reverse] at h
  rw [h]

/-- The variant question fires exactly when the framework question was asked
(so its `prev` is the selected framework object) and that framework carries a
`variants` field. -/
theorem askedVariantQ_eq (pos t : Option String) (user : UserActions) :
    askedVariantQ pos t user =
      (askedFrameworkQ t && (chosenFramework user).variants.isSome) := by
  by_cases h1 : askedFrameworkQ t <;> by_cases h2 : askedProjectNameQ pos <;>
    simp [askedVariantQ, answerAfterFrameworkQ, variantQAsked, h1, h2]

/-- On the guard of question 2, JS truthiness adds nothing: the empty string
is not a catalog id anyway. -/
theorem templateArgValid_some (s : String) :
    templateArgValid (some s) = TEMPLATES.contains s := by
  by_cases h : s = ""
  · subst h
    rfl
  · simp [templateArgValid, h]

theorem chosenFramework_mem (user : UserActions)
    (h : user.frameworkIdx < FRAMEWORKS.length) : chosenFramework user ∈ FRAMEWORKS := by
  unfold chosenFramework
  rw [List.getD_eq_getElem _ _ h]
  exact List.getElem_mem h

/-! ## Catalog facts -/

theorem framework_variants_isSome : ∀ f ∈ FRAMEWORKS, f.variants.isSome = true := by
  intro f hf
  fin_cases hf <;> decide

theorem framework_variants_multi : ∀ f ∈ FRAMEWORKS, 1 < (f.variants.getD []).length := by
  intro f hf
  fin_cases hf <;> decide

theorem variant_name_ne_empty :
    ∀ f ∈ FRAMEWORKS, ∀ v ∈ f.variants.getD [], (v.name == "") = false := by
  intro f hf
  fin_cases hf <;> (intro v hv; fin_cases hv <;> decide)

theorem variant_name_in_templates :
    ∀ f ∈ FRAMEWORKS, ∀ v ∈ f.variants.getD [], TEMPLATES.contains v.name = true := by
  intro f hf
  fin_cases hf <;> (intro v hv; fin_cases hv <;> decide)

theorem chosenVariant_mem (user : UserActions)
    (hv : user.variantIdx < ((chosenFramework user).variants.getD []).length) :
    ((chosenFramework user).variants.getD []).getD user.variantIdx fallbackVariant ∈
      (chosenFramework user).variants.getD [] := by
  rw [List.getD_eq_getElem _ _ hv]
  exact List.getElem_mem hv

/-- Fixed sample interaction: never cancels, accepts the first menu entry of
each select question, types nothing at the project-name question. -/
def sampleUser : UserActions :=
  { cancelProjectName := false, projectName := "", cancelFramework := false,
    frameworkIdx := 0, cancelVariant := false, variantIdx := 0 }

/-- Sample sibling directories of the tool: only `template-vue-ts` exists. -/
def vueTsSiblings : String → Option (List (String × FSTree)) :=
  fun s => if s == "template-vue-ts" then some [("index.html", FSTree.file [60])] else none

/-- Normalizing the positional argument to the empty string makes the whole
run behave exactly as if no positional argument had been supplied. -/
theorem initRun_empty_pos (s : String) (h : formatTargetDirStr s = "") (t : Option String)
    (help : Bool) (user : UserActions) (cwd : List (String × FSTree))
    (sib : String → Option (List (String × FSTree))) :
    initRun (some s) t help user cwd sib = initRun none t help user cwd sib := by
  have ha : askedProjectNameQ (some s) = true := by
    simp [askedProjectNameQ, formatTargetDir, optStrTruthy, h]
  have hb : askedProjectNameQ none = true := rfl
  have h2 : answerAfterFrameworkQ (some s) t user = answerAfterFrameworkQ none t user := by
    simp [answerAfterFrameworkQ, ha, hb]
  have h3 : askedVariantQ (some s) t user = askedVariantQ none t user := by
    simp [askedVariantQ, h2]
  have h4 : resolvedTargetDir (some s) user = resolvedTargetDir none user := by
    simp [resolvedTargetDir, ha, hb]
  have h5 : variantAnswer (some s) t user = variantAnswer none t user := by
    simp [variantAnswer, h3]
  have h6 : finalTemplate (some s) t user = finalTemplate none t user := by
    simp [finalTemplate, h5]
  have h7 : mkDoneInfo (some s) t user = mkDoneInfo none t user := by
    simp [mkDoneInfo, ha, hb, h3, h4, h5, h6]
  have h8 : promptOutcome (some s) t help user = promptOutcome none t help user := by
    simp [promptOutcome, ha, hb, h3]
  unfold initRun
  rw [h8]
  cases promptOutcome none t help user
  · simp only [scaffold, h4, h6, h7]
  · rfl

/-! ## The claims -/

/-- Claim C9: every variant id in the catalog is globally unique across all
frameworks (the derived flat list `TEMPLATES` has no duplicates), and every
known variant id is reported valid by `TEMPLATES` and maps back to exactly one
(framework, variant) pair of the catalog. -/
theorem catalog_variant_ids_unique :
    nodupNames TEMPLATES = true ∧
    ∀ f ∈ FRAMEWORKS, ∀ v ∈ f.variants.getD [],
      TEMPLATES.contains v.name = true ∧
      (catalogPairs.filter (fun p => p.2 == v.name)).length = 1 := by
  refine ⟨by decide, ?_⟩
  intro f hf
  fin_cases hf <;> (intro v hv; fin_cases hv <;> decide)

theorem catalog_variant_ids_unique_witness :
    TEMPLATES.contains "react-swc-ts" = true ∧
    (catalogPairs.filter (fun p => p.2 == "react-swc-ts")).length = 1 :=
  catalog_variant_ids_unique.2 (FRAMEWORKS.getD 1 fallbackFramework) (by decide)
    { name := "react-swc-ts", display := "TypeScript + SWC", color := ColorTag.blue } (by decide)

/-- Claim C7: the variant question fires exactly for a selected catalog
framework — each of which has more than one variant — and is auto-skipped
(`type` resolves to `null`) when the selected framework has no `variants`
field, when the threaded `prev` value is not a framework object (a typed
project name or `undefined`), and in particular whenever the framework
question itself was skipped. -/
theorem variant_question_gating :
    (∀ f ∈ FRAMEWORKS, variantQAsked (PromptAnswer.fw f) = true ∧ 1 < (f.variants.getD []).length) ∧
    (∀ f : Framework, f.variants = none → variantQAsked (PromptAnswer.fw f) = false) ∧
    (variantQAsked PromptAnswer.undef = false) ∧
    (∀ s, variantQAsked (PromptAnswer.str s) = false) ∧
    (∀ pos t user, askedFrameworkQ t = false → askedVariantQ pos t user = false) := by
  refine ⟨?_, ?_, rfl, fun s => rfl, ?_⟩
  · intro f hf
    fin_cases hf <;> decide
  · intro f h
    simp [variantQAsked, h]
  · intro pos t user h
    rw [askedVariantQ_eq, h]
    simp

theorem variant_question_gating_witness :
    variantQAsked (PromptAnswer.fw (FRAMEWORKS.getD 0 fallbackFramework)) = true ∧
    askedVariantQ (some "my-app") (some "vue-ts") sampleUser = false :=
  ⟨(variant_question_gating.1 (FRAMEWORKS.getD 0 fallbackFramework) (by decide)).1,
   variant_question_gating.2.2.2.2 (some "my-app") (some "vue-ts") sampleUser (by decide)⟩

/-- Claim C6: the candidate target directory is the positional argument
trimmed of surrounding whitespace with all trailing `/` characters removed
(`"my-app/"` resolves to `"my-app"`), and an argument that normalizes to the
empty string behaves exactly as an absent argument: the whole run is
identical, the project-name question is asked, and the `vite-project` default
applies when the typed name also normalizes to empty. -/
theorem target_dir_normalization :
    (∀ s, formatTargetDir (some s) = some (specNormalizeTargetDir s)) ∧
    (formatTargetDir (some "my-app/") = some "my-app") ∧
    (∀ s, formatTargetDirStr s = "" →
      ∀ (t : Option String) (help : Bool) (user : UserActions)
        (cwd : List (String × FSTree)) (sib : String → Option (List (String × FSTree))),
        initRun (some s) t help user cwd sib = initRun none t help user cwd sib) ∧
    (∀ s (user : UserActions), formatTargetDirStr s = "" →
      formatTargetDirStr user.projectName = "" →
      resolvedTargetDir (some s) user = "vite-project") := by
  refine ⟨?_, by rfl, ?_, ?_⟩
  · intro s
    simp [formatTargetDir, formatTargetDirStr_eq_spec]
  · intro s hs t help user cwd sib
    exact initRun_empty_pos s hs t help user cwd sib
  · intro s user hs hp
    have ha : askedProjectNameQ (some s) = true := by
      simp [askedProjectNameQ, formatTargetDir, optStrTruthy, hs]
    simp [resolvedTargetDir, ha, jsOrD, formatTargetDir, hp, optStrTruthy, defaultTargetDir]

theorem target_dir_normalization_witness :
    formatTargetDir (some "  my-app// ") = some (specNormalizeTargetDir "  my-app// ") ∧
    initRun (some "  /// ") none false sampleUser [] vueTsSiblings =
      initRun none none false sampleUser [] vueTsSiblings ∧
    resolvedTargetDir (some "  /// ") sampleUser = "vite-project" :=
  ⟨target_dir_normalization.1 "  my-app// ",
   target_dir_normalization.2.2.1 "  /// " (by rfl) none false sampleUser [] vueTsSiblings,
   target_dir_normalization.2.2.2 "  /// " sampleUser (by rfl) (by rfl)⟩

/-- Claim C3: materializing a well-formed template directory into an empty
destination reproduces the template exactly — same subdirectory structure,
the top-level `_gitignore` written as `.gitignore`, every subtree (hence every
file's bytes) carried over verbatim with no content substitution. -/
theorem materialize_verbatim_with_rename (tmpl : List (String × FSTree))
    (hwf : wfTree (FSTree.dir tmpl) = true)
    (hnd : nodupNames (tmpl.map (fun p => writeName p.1)) = true) :
    materialize tmpl [] = (none, tmpl.map (fun p => (writeName p.1, p.2))) := by
  have hwe : wfEntries tmpl = true := by
    simp [wfTree] at hwf; exact hwf.2
  have h := materialize_disjoint tmpl [] hwe hnd (fun p _ => rfl)
  simpa using h

/-- A small template with a top-level `_gitignore` and a nested subdirectory. -/
def sampleTemplate : List (String × FSTree) :=
  [("_gitignore", FSTree.file [110, 111]),
   ("index.html", FSTree.file [60, 33]),
   ("src", FSTree.dir [("main.js", FSTree.file [1, 2, 3])])]

theorem materialize_verbatim_with_rename_witness :
    materialize sampleTemplate [] =
      (none,
        [(".gitignore", FSTree.file [110, 111]),
         ("index.html", FSTree.file [60, 33]),
         ("src", FSTree.dir [("main.js", FSTree.file [1, 2, 3])])]) := by
  have h := materialize_verbatim_with_rename sampleTemplate (by rfl) (by rfl)
  exact h

/-- Claim C8: the destination root is created (recursively, empty) only when
absent; when it already exists — `ensureRoot` being total, no error is
possible — the guard leaves the filesystem untouched and nothing is cleared or
conflict-checked; and any pre-existing destination entry whose name collides
with no (renamed) template entry survives materialization unchanged, whether
the copy loop succeeds or stops at an error. -/
theorem destination_preserved :
    (∀ cwd td, lookupEntry cwd td = none →
      lookupEntry (ensureRoot cwd td) td = some (FSTree.dir [])) ∧
    (∀ cwd td x, lookupEntry cwd td = some x → ensureRoot cwd td = cwd) ∧
    (∀ tmpl root n, (∀ p ∈ tmpl, writeName p.1 ≠ n) →
      lookupEntry (materialize tmpl root).2 n = lookupEntry root n) := by
  refine ⟨?_, ?_, ?_⟩
  · intro cwd td h
    unfold ensureRoot
    rw [h]
    exact lookupEntry_setEntry_self cwd td _
  · intro cwd td x h
    unfold ensureRoot
    rw [h]
  · intro tmpl root n h
    exact materialize_untouched tmpl root n h

theorem destination_preserved_witness :
    lookupEntry (ensureRoot [] "my-app") "my-app" = some (FSTree.dir []) ∧
    ensureRoot [("my-app", FSTree.dir [("old.txt", FSTree.file [5])])] "my-app" =
      [("my-app", FSTree.dir [("old.txt", FSTree.file [5])])] ∧
    lookupEntry
      (materialize [("a.txt", FSTree.file [1])] [("keep.txt", FSTree.file [7])]).2
      "keep.txt" = some (FSTree.file [7]) :=
  ⟨destination_preserved.1 [] "my-app" rfl,
   destination_preserved.2.1 [("my-app", FSTree.dir [("old.txt", FSTree.file [5])])] "my-app"
     (FSTree.dir [("old.txt", FSTree.file [5])]) rfl,
   destination_preserved.2.2 [("a.txt", FSTree.file [1])] [("keep.txt", FSTree.file [7])]
     "keep.txt" (by decide)⟩

/-- Claim C10: the `_gitignore` → `.gitignore` rename applies only to the
immediate entries of the template directory: a `_gitignore` inside a nested
subdirectory reaches the destination under the unchanged name `_gitignore`
(and no `.gitignore` appears there), because `copyDir` copies children under
their own names without consulting the rename table. -/
theorem nested_gitignore_not_renamed (d : String) (sub : List (String × FSTree)) (c : List Nat)
    (hwf : wfTree (FSTree.dir [(d, FSTree.dir sub)]) = true)
    (hg : lookupEntry sub "_gitignore" = some (FSTree.file c))
    (hng : lookupEntry sub ".gitignore" = none) :
    ∃ out, materialize [(d, FSTree.dir sub)] [] = (none, out) ∧
      lookupEntry out (writeName d) = some (FSTree.dir sub) ∧
      lookupEntry sub "_gitignore" = some (FSTree.file c) ∧
      lookupEntry sub ".gitignore" = none := by
  have hwe : wfEntries [(d, FSTree.dir sub)] = true := by
    simp [wfTree] at hwf
    exact hwf.2
  have hnd : nodupNames ([(d, FSTree.dir sub)].map (fun p => writeName p.1)) = true := by
    simp [nodupNames, namesHas]
  have h := materialize_disjoint [(d, FSTree.dir sub)] [] hwe hnd (fun p _ => rfl)
  refine ⟨[(writeName d, FSTree.dir sub)], by simpa using h, ?_, hg, hng⟩
  simp [lookupEntry]

theorem nested_gitignore_not_renamed_witness :
    ∃ out, materialize [("config", FSTree.dir [("_gitignore", FSTree.file [10])])] [] = (none, out) ∧
      lookupEntry out (writeName "config") = some (FSTree.dir [("_gitignore", FSTree.file [10])]) ∧
      lookupEntry [("_gitignore", FSTree.file [10])] "_gitignore" = some (FSTree.file [10]) ∧
      lookupEntry [("_gitignore", FSTree.file [10])] ".gitignore" = none :=
  nested_gitignore_not_renamed "config" [("_gitignore", FSTree.file [10])] [10]
    (by rfl) (by rfl) (by rfl)

/-- Claim C1 counterexample: with the valid multi-variant template id
`vue-ts` supplied via `--template` (vue has two variants), the framework
question's `null` type records no answer, so the variant question's `prev` is
not a framework object and the variant question is NOT shown
(`askedVariant = false`) — contradicting the claim that it is still shown and
that its answer overrides the flag; the final template is the flag id itself. -/
theorem template_flag_no_override_counterexample :
    (initRun (some "my-app") (some "vue-ts") false sampleUser [] vueTsSiblings).1 =
      RunResult.done
        { targetDir := "my-app", askedProjectName := false, askedFramework := false,
          askedVariant := false, framework := none, variant := none,
          template := some "vue-ts" } := by
  rfl

/-- Claim C1 amended: for every completed run, the final template equals the
variant id chosen in the variant question when that question was asked, and
otherwise equals the flag-supplied candidate; when a valid template id is
supplied via the flag — even a multi-variant one — the framework and variant
questions are both skipped and the flag id is used unchanged (no override
occurs because the variant question is never shown). -/
theorem template_resolution (pos t : Option String) (user : UserActions)
    (cwd : List (String × FSTree)) (sib : String → Option (List (String × FSTree)))
    (info : DoneInfo)
    (hfw : user.frameworkIdx < FRAMEWORKS.length)
    (hv : user.variantIdx < ((chosenFramework user).variants.getD []).length)
    (hdone : (initRun pos t false user cwd sib).1 = RunResult.done info) :
    (info.askedVariant = true →
      info.variant = some (chosenVariantName user) ∧
      info.template = some (chosenVariantName user)) ∧
    (info.askedVariant = false → info.template = t) ∧
    (templateArgValid t = true →
      info.askedFramework = false ∧ info.askedVariant = false ∧ info.template = t) := by
  obtain ⟨-, hinfo⟩ := initRun_done_inv pos t false user cwd sib info hdone
  subst hinfo
  have hmem : chosenFramework user ∈ FRAMEWORKS := chosenFramework_mem user hfw
  have hname : (chosenVariantName user == "") = false :=
    variant_name_ne_empty (chosenFramework user) hmem _ (chosenVariant_mem user hv)
  refine ⟨?_, ?_, ?_⟩
  · intro hav
    have hv1 : variantAnswer pos t user = some (chosenVariantName user) := by
      simp only [mkDoneInfo] at hav
      simp [variantAnswer, hav, chosenVariantName]
    refine ⟨hv1, ?_⟩
    simp [mkDoneInfo, finalTemplate, hv1, optStrTruthy, hname, jsOrStr]
  · intro hav
    have hv1 : variantAnswer pos t user = none := by
      simp only [mkDoneInfo] at hav
      simp [variantAnswer, hav]
    simp [mkDoneInfo, finalTemplate, hv1, optStrTruthy, jsOrStr]
  · intro hvalid
    have hfq : askedFrameworkQ t = false := by
      simp [askedFrameworkQ, hvalid]
    have hav : askedVariantQ pos t user = false := by
      rw [askedVariantQ_eq, hfq]
      simp
    have hv1 : variantAnswer pos t user = none := by
      simp [variantAnswer, hav]
    refine ⟨by simp [mkDoneInfo, hfq], by simp [mkDoneInfo, hav], ?_⟩
    simp [mkDoneInfo, finalTemplate, hv1, optStrTruthy, jsOrStr]

theorem template_resolution_witness :
    (initRun (some "my-app") none false sampleUser [] vueTsSiblings).1 =
      RunResult.done (mkDoneInfo (some "my-app") none sampleUser) ∧
    (mkDoneInfo (some "my-app") none sampleUser).askedVariant = true ∧
    (mkDoneInfo (some "my-app") none sampleUser).template = some (chosenVariantName sampleUser) := by
  refine ⟨by rfl, by rfl, ?_⟩
  exact ((template_resolution (some "my-app") none sampleUser [] vueTsSiblings
    (mkDoneInfo (some "my-app") none sampleUser) (by decide) (by decide) (by rfl)).1 (by rfl)).2

/-- Claim C5: in every completed run the framework question is skipped exactly
when a template candidate was supplied and is a known variant id; for any
supplied candidate that is not a known variant id (e.g. `bogus-name`) the
framework and variant questions are both asked and the final template is the
user's menu selection — a catalog variant id, hence never the invalid
candidate. -/
theorem framework_question_gating (pos t : Option String) (user : UserActions)
    (cwd : List (String × FSTree)) (sib : String → Option (List (String × FSTree)))
    (info : DoneInfo)
    (hfw : user.frameworkIdx < FRAMEWORKS.length)
    (hv : user.variantIdx < ((chosenFramework user).variants.getD []).length)
    (hdone : (initRun pos t false user cwd sib).1 = RunResult.done info) :
    (info.askedFramework = false ↔ ∃ s, t = some s ∧ TEMPLATES.contains s = true) ∧
    (∀ s, t = some s → TEMPLATES.contains s = false →
      info.askedFramework = true ∧ info.askedVariant = true ∧
      info.template = some (chosenVariantName user) ∧ info.template ≠ some s) := by
  obtain ⟨-, hinfo⟩ := initRun_done_inv pos t false user cwd sib info hdone
  subst hinfo
  have hmem : chosenFramework user ∈ FRAMEWORKS := chosenFramework_mem user hfw
  have hname : (chosenVariantName user == "") = false :=
    variant_name_ne_empty (chosenFramework user) hmem _ (chosenVariant_mem user hv)
  have hintpl : TEMPLATES.contains (chosenVariantName user) = true :=
    variant_name_in_templates (chosenFramework user) hmem _ (chosenVariant_mem user hv)
  constructor
  · cases t with
    | none => simp [mkDoneInfo, askedFrameworkQ, templateArgValid]
    | some s =>
      simp only [mkDoneInfo, askedFrameworkQ, templateArgValid_some]
      constructor
      · intro hc
        exact ⟨s, rfl, by simpa using hc⟩
      · rintro ⟨s2, hs2, hc⟩
        injection hs2 with hs2
        subst hs2
        have hc2 : s ∈ TEMPLATES := by simpa using hc
        simp [hc2]
  · intro s hts hcon
    subst hts
    have hcon2 : s ∉ TEMPLATES := by simpa using hcon
    have hfq : askedFrameworkQ (some s) = true := by
      simp [askedFrameworkQ, templateArgValid_some, hcon2]
    have hvs : (chosenFramework user).variants.isSome = true :=
      framework_variants_isSome (chosenFramework user) hmem
    have hav : askedVariantQ pos (some s) user = true := by
      rw [askedVariantQ_eq, hfq, hvs]
      rfl
    have hv1 : variantAnswer pos (some s) user = some (chosenVariantName user) := by
      simp [variantAnswer, hav, chosenVariantName]
    have htpl : finalTemplate pos (some s) user = some (chosenVariantName user) := by
      simp [finalTemplate, hv1, optStrTruthy, hname, jsOrStr]
    refine ⟨by simp [mkDoneInfo, hfq], by simp [mkDoneInfo, hav], by simp [mkDoneInfo, htpl], ?_⟩
    simp only [mkDoneInfo, htpl]
    intro he
    injection he with he
    rw [← he] at hcon
    rw [hintpl] at hcon
    exact absurd hcon (by simp)

theorem framework_question_gating_witness :
    (initRun (some "my-app") (some "bogus-name") false sampleUser [] vueTsSiblings).1 =
      RunResult.done (mkDoneInfo (some "my-app") (some "bogus-name") sampleUser) ∧
    (mkDoneInfo (some "my-app") (some "bogus-name") sampleUser).askedFramework = true ∧
    (mkDoneInfo (some "my-app") (some "bogus-name") sampleUser).askedVariant = true ∧
    (mkDoneInfo (some "my-app") (some "bogus-name") sampleUser).template ≠ some "bogus-name" := by
  have h := (framework_question_gating (some "my-app") (some "bogus-name") sampleUser []
    vueTsSiblings (mkDoneInfo (some "my-app") (some "bogus-name") sampleUser)
    (by decide) (by decide) (by rfl)).2 "bogus-name" rfl (by decide)
  exact ⟨by rfl, h.1, h.2.1, h.2.2.2⟩

/-- Claim C4: aborting the interactive flow at a question yields exactly the
`onCancel` "Operation cancelled" condition, caught by `init`'s `catch`: the
message is printed, the filesystem is left untouched (the root guard and copy
loop are never reached), and the top-level handler sees no rejection — exit
code 0, no error print; conversely cancelling at the (asked) first question
does produce that outcome. -/
theorem cancellation_clean_exit (pos t : Option String) (help : Bool) (user : UserActions)
    (cwd : List (String × FSTree)) (sib : String → Option (List (String × FSTree))) :
    (∀ m, (initRun pos t help user cwd sib).1 = RunResult.cancelled m →
      m = cancelMessage ∧ (initRun pos t help user cwd sib).2 = cwd ∧
      topLevel (initRun pos t help user cwd sib).1 = ([], 0)) ∧
    (askedProjectNameQ pos = true → user.cancelProjectName = true → help = false →
      (initRun pos t help user cwd sib).1 = RunResult.cancelled cancelMessage) := by
  constructor
  · intro m hm
    obtain ⟨h1, h2⟩ := initRun_cancelled_inv pos t help user cwd sib m hm
    refine ⟨h1, h2, ?_⟩
    rw [hm]
    rfl
  · intro h1 h2 h3
    simp [initRun, promptOutcome, h1, h2, h3]

theorem cancellation_clean_exit_witness :
    (initRun none none false { sampleUser with cancelProjectName := true } [] vueTsSiblings).1 =
      RunResult.cancelled cancelMessage ∧
    (initRun none none false { sampleUser with cancelProjectName := true } [] vueTsSiblings).2 = [] := by
  have hc := (cancellation_clean_exit none none false
    { sampleUser with cancelProjectName := true } [] vueTsSiblings).2 (by rfl) (by rfl) (by rfl)
  have h := ((cancellation_clean_exit none none false
    { sampleUser with cancelProjectName := true } [] vueTsSiblings).1 cancelMessage hc).2.1
  exact ⟨hc, h⟩

/-- Claim C2 counterexample: a failing filesystem operation during
materialization (here: the template directory is missing, so the first
enumeration throws) reaches the top level and is printed, but the process exit
code is 0, not non-zero — `init().catch((e) => console.error(e))` handles the
rejection and nothing ever sets a failure exit code. -/
theorem fs_error_exit_zero_counterexample :
    (initRun (some "my-app") (some "vue-ts") false sampleUser [] (fun _ => none)).1 =
      RunResult.fsError "ENOENT: no such template directory" ∧
    (topLevel (initRun (some "my-app") (some "vue-ts") false sampleUser [] (fun _ => none)).1).2 = 0 := by
  exact ⟨by rfl, by rfl⟩

/-- Claim C2 amended: a filesystem error during materialization propagates out
of `init` uncaught (the internal `catch` only covers the prompts), is printed
by the top-level rejection handler, and the process terminates with exit code
0 — a success status, not a failure signal. -/
theorem fs_error_printed_exit_zero (pos t : Option String) (help : Bool) (user : UserActions)
    (cwd : List (String × FSTree)) (sib : String → Option (List (String × FSTree))) (e : String)
    (h : (initRun pos t help user cwd sib).1 = RunResult.fsError e) :
    topLevel (initRun pos t help user cwd sib).1 = ([e], 0) := by
  rw [h]
  rfl

theorem fs_error_printed_exit_zero_witness :
    topLevel (initRun (some "my-app") (some "vue-ts") false sampleUser [] (fun _ => none)).1 =
      (["ENOENT: no such template directory"], 0) :=
  fs_error_printed_exit_zero (some "my-app") (some "vue-ts") false sampleUser [] (fun _ => none)
    "ENOENT: no such template directory" (by rfl)
